import Mathlib

/-!
Verification development for the pomodoro session core
(`src/pymodoro/session.py`): the `SleepRecoveryTimer` wall-clock
recovery timer and the `SessionPhaseManager` phase state machine.

Modelling conventions:
* wall-clock instants and durations are `Int` seconds (`QDateTime.secsTo`
  returns whole seconds; all intervals in the source are whole seconds);
* a `QTimer` is modelled by whether it is active, the instant it was
  started, and its interval in seconds; `remainingTime()` is modelled in
  milliseconds with Qt's `-1` sentinel for an inactive timer;
* Qt signal emissions become explicit event lists returned by each
  operation, in emission order;
* Python's floor division `//` is `Int.fdiv`.
-/

/-- Phases of a pomodoro session (`SessionPhase` in `session.py`; the
string payloads of the enum are irrelevant to behaviour and omitted). -/
inductive SessionPhase
  | WORK
  | BREAK
  | PAUSE
deriving DecidableEq, Repr

/-- Module constant `LATE_FINISH_RESTART_THRESHOLD_SEC = 300`. -/
def LATE_FINISH_RESTART_THRESHOLD_SEC : Int := 300

/-- Module constant `PHASE_CHANGE_WARNING_SEC = 60`. -/
def PHASE_CHANGE_WARNING_SEC : Int := 60

/-- Module constant `SLEEP_GAP_THRESHOLD_SEC = 30`. -/
def SLEEP_GAP_THRESHOLD_SEC : Int := 30

/-- Python floor division `//` on integers. -/
def pyFloorDiv (a b : Int) : Int := Int.fdiv a b

/-- State of one `QtCore.QTimer`: whether it is running, the instant it
was last started, and its interval in seconds. -/
structure QTimerState where
  active : Bool
  startedAt : Int
  intervalSec : Int
deriving DecidableEq, Repr

/-- Qt's `QTimer.remainingTime()`: milliseconds until the timer fires,
or `-1` when the timer is inactive. -/
def QTimerState.remainingTimeMs (t : QTimerState) (now : Int) : Int :=
  if t.active then t.intervalSec * 1000 - (now - t.startedAt) * 1000 else -1

/-- Events (Qt signals) emitted by `SleepRecoveryTimer`. -/
inductive ClockEvent
  | finished (missed_by_seconds : Int)
  | phaseEndingSoon
deriving DecidableEq, Repr

/-- State of `SleepRecoveryTimer`: configuration, the absolute deadline
`_ends_at`, the heartbeat mark `_last_heartbeat_at`, and its three
`QTimer`s (the heartbeat timer only matters through its activity flag). -/
structure SleepRecoveryTimer where
  sleep_gap_threshold_sec : Int
  phase_change_warning_sec : Int
  heartbeat_interval_sec : Int
  ends_at : Option Int
  last_heartbeat_at : Option Int
  phase_timer : QTimerState
  heartbeat_active : Bool
  phase_warning_timer : QTimerState
deriving DecidableEq, Repr

/-- `SleepRecoveryTimer.__init__` with the module-constant defaults:
no deadline, no heartbeat mark, all timers stopped. -/
def SleepRecoveryTimer.init : SleepRecoveryTimer :=
  { sleep_gap_threshold_sec := SLEEP_GAP_THRESHOLD_SEC
    phase_change_warning_sec := PHASE_CHANGE_WARNING_SEC
    heartbeat_interval_sec := pyFloorDiv SLEEP_GAP_THRESHOLD_SEC 3
    ends_at := none
    last_heartbeat_at := none
    phase_timer := ⟨false, 0, 0⟩
    heartbeat_active := false
    phase_warning_timer := ⟨false, 0, 0⟩ }

/-- `SleepRecoveryTimer._schedule_phase_warning(now)`: no-op when the
deadline is unset; otherwise stop the warning timer, compute the delay
to `ends_at - phase_change_warning_sec`, emit `phaseEndingSoon`
immediately when that delay is `≤ 0`, else arm the warning timer. -/
def SleepRecoveryTimer.schedule_phase_warning (st : SleepRecoveryTimer) (now : Int) :
    SleepRecoveryTimer × List ClockEvent :=
  match st.ends_at with
  | none => (st, [])
  | some e =>
    if e - st.phase_change_warning_sec - now ≤ 0 then
      ({ st with phase_warning_timer := { st.phase_warning_timer with active := false } },
       [ClockEvent.phaseEndingSoon])
    else
      ({ st with phase_warning_timer := ⟨true, now, e - st.phase_change_warning_sec - now⟩ },
       [])

/-- `SleepRecoveryTimer.start(seconds)` at instant `now`: clamp the
duration to `max 0 seconds`, set `ends_at = now + duration`, reset the
heartbeat mark, restart the single-shot phase timer for `duration`,
schedule the warning, and ensure the heartbeat timer runs. -/
def SleepRecoveryTimer.start (st : SleepRecoveryTimer) (now seconds : Int) :
    SleepRecoveryTimer × List ClockEvent :=
  let st1 : SleepRecoveryTimer :=
    { st with
      ends_at := some (now + max 0 seconds)
      last_heartbeat_at := some now
      phase_timer := ⟨true, now, max 0 seconds⟩ }
  let r := st1.schedule_phase_warning now
  ({ r.1 with heartbeat_active := true }, r.2)

/-- `SleepRecoveryTimer.stop()`: cancel all three timers and clear the
deadline and the heartbeat mark. -/
def SleepRecoveryTimer.stop (st : SleepRecoveryTimer) : SleepRecoveryTimer :=
  { st with
    phase_timer := { st.phase_timer with active := false }
    heartbeat_active := false
    phase_warning_timer := { st.phase_warning_timer with active := false }
    ends_at := none
    last_heartbeat_at := none }

/-- `SleepRecoveryTimer.extend(seconds)` at instant `now`: no-op when the
deadline is unset; otherwise move the deadline by `seconds`, restart the
phase timer with `max 0 (new deadline - now)`, reschedule the warning,
and ensure the heartbeat timer runs. -/
def SleepRecoveryTimer.extend (st : SleepRecoveryTimer) (now seconds : Int) :
    SleepRecoveryTimer × List ClockEvent :=
  match st.ends_at with
  | none => (st, [])
  | some e =>
    let st1 : SleepRecoveryTimer :=
      { st with
        ends_at := some (e + seconds)
        phase_timer := ⟨true, now, max 0 (e + seconds - now)⟩ }
    let r := st1.schedule_phase_warning now
    ({ r.1 with heartbeat_active := true }, r.2)

/-- `SleepRecoveryTimer.remaining_seconds()` at instant `now`:
`phase_timer.remainingTime() // 1000` (so `-1` for an inactive timer). -/
def SleepRecoveryTimer.remaining_seconds (st : SleepRecoveryTimer) (now : Int) : Int :=
  pyFloorDiv (st.phase_timer.remainingTimeMs now) 1000

/-- `SleepRecoveryTimer.detect_sleep_gap(now)`: returns whether the last
heartbeat mark is set and more than `sleep_gap_threshold_sec` in the
past, and unconditionally overwrites the mark with `now`. -/
def SleepRecoveryTimer.detect_sleep_gap (st : SleepRecoveryTimer) (now : Int) :
    Bool × SleepRecoveryTimer :=
  ((match st.last_heartbeat_at with
    | none => false
    | some m => decide (st.sleep_gap_threshold_sec < now - m)),
   { st with last_heartbeat_at := some now })

/-- `SleepRecoveryTimer._on_phase_timer_timeout()`: stop the warning
timer and emit `finished(0)`. The phase timer is single-shot, so firing
leaves it inactive. -/
def SleepRecoveryTimer.on_phase_timer_timeout (st : SleepRecoveryTimer) :
    SleepRecoveryTimer × List ClockEvent :=
  ({ st with
      phase_timer := { st.phase_timer with active := false }
      phase_warning_timer := { st.phase_warning_timer with active := false } },
   [ClockEvent.finished 0])

/-- `SleepRecoveryTimer._recover_after_sleep(now)`: no-op when the
deadline is unset; if the deadline already passed, stop the phase and
warning timers and emit `finished(|remaining|)` without re-arming; else
restart the phase timer with the corrected remaining time and
reschedule the warning against the unchanged deadline. -/
def SleepRecoveryTimer.recover_after_sleep (st : SleepRecoveryTimer) (now : Int) :
    SleepRecoveryTimer × List ClockEvent :=
  match st.ends_at with
  | none => (st, [])
  | some e =>
    if e - now ≤ 0 then
      ({ st with
          phase_timer := { st.phase_timer with active := false }
          phase_warning_timer := { st.phase_warning_timer with active := false } },
       [ClockEvent.finished |e - now|])
    else
      ({ st with phase_timer := ⟨true, now, e - now⟩ }).schedule_phase_warning now

/-- `SleepRecoveryTimer._on_heartbeat_timeout()` at instant `now`: run
sleep-gap detection (which updates the heartbeat mark) and recover when
a gap is detected. -/
def SleepRecoveryTimer.on_heartbeat_timeout (st : SleepRecoveryTimer) (now : Int) :
    SleepRecoveryTimer × List ClockEvent :=
  if (st.detect_sleep_gap now).1 then
    ((st.detect_sleep_gap now).2).recover_after_sleep now
  else
    ((st.detect_sleep_gap now).2, [])

/-- Operations that can act on a `SleepRecoveryTimer`: the public calls
(`start`, `stop`, `extend`, an external `detect_sleep_gap` probe) and
the timer callbacks the Qt event loop can deliver. -/
inductive ClockOp
  | start (now seconds : Int)
  | stop
  | extend (now seconds : Int)
  | heartbeat (now : Int)
  | phaseTimeout
  | warningTimeout
  | probeGap (now : Int)
deriving DecidableEq, Repr

/-- One step of the clock: public calls apply directly; a timer callback
fires only when its timer is active, and the single-shot phase and
warning timers deactivate on firing (the warning timer's `timeout` is
connected straight to `phaseEndingSoon.emit`). -/
def stepClock (st : SleepRecoveryTimer) : ClockOp → SleepRecoveryTimer × List ClockEvent
  | ClockOp.start now seconds => st.start now seconds
  | ClockOp.stop => (st.stop, [])
  | ClockOp.extend now seconds => st.extend now seconds
  | ClockOp.heartbeat now =>
      if st.heartbeat_active then st.on_heartbeat_timeout now else (st, [])
  | ClockOp.phaseTimeout =>
      if st.phase_timer.active then st.on_phase_timer_timeout else (st, [])
  | ClockOp.warningTimeout =>
      if st.phase_warning_timer.active then
        ({ st with phase_warning_timer := { st.phase_warning_timer with active := false } },
         [ClockEvent.phaseEndingSoon])
      else (st, [])
  | ClockOp.probeGap now => ((st.detect_sleep_gap now).2, [])

/-- Run a sequence of clock operations, collecting all emitted events in
order. -/
def runClock (st : SleepRecoveryTimer) : List ClockOp → SleepRecoveryTimer × List ClockEvent
  | [] => (st, [])
  | op :: ops =>
    let r := stepClock st op
    let rest := runClock r.1 ops
    (rest.1, r.2 ++ rest.2)

/-- Number of `phaseEndingSoon` emissions in an event list. -/
def countWarnings : List ClockEvent → Nat
  | [] => 0
  | ClockEvent.phaseEndingSoon :: rest => countWarnings rest + 1
  | ClockEvent.finished _ :: rest => countWarnings rest

/-- Timer durations from `AppSettings.timers` (`TimersSettings` in
`settings.py`; validated there as positive integers). -/
structure TimersSettings where
  work_duration : Int
  break_duration : Int
  snooze_duration : Int
deriving DecidableEq, Repr

/-- Events (Qt signals) emitted by `SessionPhaseManager`. -/
inductive ManagerEvent
  | phaseChanged (previous current : SessionPhase)
  | phaseEndingSoon (phase : SessionPhase)
  | workEnded
deriving DecidableEq, Repr

/-- State of `SessionPhaseManager`: the settings, the current phase and
the owned `SleepRecoveryTimer`. -/
structure SessionPhaseManager where
  settings : TimersSettings
  phase : SessionPhase
  timer : SleepRecoveryTimer
deriving DecidableEq, Repr

/-- `SessionPhaseManager.__init__`: phase starts as `BREAK` with a fresh
clock. -/
def SessionPhaseManager.init (settings : TimersSettings) : SessionPhaseManager :=
  { settings := settings, phase := SessionPhase.BREAK, timer := SleepRecoveryTimer.init }

/-- Relay of the clock's signals through the manager's connections: the
clock's `phaseEndingSoon` becomes `phaseEndingSoon(current phase)`
(`_on_phase_ending_soon`); `finished` is consumed by
`_on_timer_finished`, which is modelled separately, and `start`/`extend`
never emit it (`start_emits_no_finished` below). -/
def relayClockEvent (phase : SessionPhase) : ClockEvent → List ManagerEvent
  | ClockEvent.phaseEndingSoon => [ManagerEvent.phaseEndingSoon phase]
  | ClockEvent.finished _ => []

/-- Python truthiness substitution `seconds or default_duration`: both
`None` and `0` are falsy and select the default. -/
def pyOrDefault (seconds : Option Int) (default_duration : Int) : Int :=
  match seconds with
  | none => default_duration
  | some n => if n = 0 then default_duration else n

/-- `SessionPhaseManager._start_phase(phase, seconds)` at instant `now`:
set the phase, emit `phaseChanged(previous, phase)`, then start the
clock (whose synchronous emissions are relayed after it). -/
def SessionPhaseManager.start_phase (m : SessionPhaseManager) (phase : SessionPhase)
    (seconds now : Int) : SessionPhaseManager × List ManagerEvent :=
  let r := m.timer.start now seconds
  ({ m with phase := phase, timer := r.1 },
   ManagerEvent.phaseChanged m.phase phase :: r.2.flatMap (relayClockEvent phase))

/-- `SessionPhaseManager.start_work_phase(seconds=None)`. -/
def SessionPhaseManager.start_work_phase (m : SessionPhaseManager)
    (seconds : Option Int) (now : Int) : SessionPhaseManager × List ManagerEvent :=
  m.start_phase SessionPhase.WORK (pyOrDefault seconds m.settings.work_duration) now

/-- `SessionPhaseManager.start_break_phase(seconds=None)`. -/
def SessionPhaseManager.start_break_phase (m : SessionPhaseManager)
    (seconds : Option Int) (now : Int) : SessionPhaseManager × List ManagerEvent :=
  m.start_phase SessionPhase.BREAK (pyOrDefault seconds m.settings.break_duration) now

/-- `SessionPhaseManager.start()`: always starts a work phase with the
default duration. -/
def SessionPhaseManager.start (m : SessionPhaseManager) (now : Int) :
    SessionPhaseManager × List ManagerEvent :=
  m.start_work_phase none now

/-- `SessionPhaseManager.resume()`: start a work phase only from
`PAUSE`. -/
def SessionPhaseManager.resume (m : SessionPhaseManager) (now : Int) :
    SessionPhaseManager × List ManagerEvent :=
  if m.phase = SessionPhase.PAUSE then m.start_work_phase none now else (m, [])

/-- `SessionPhaseManager.pause_until(target_datetime)` at instant `now`:
transition into `PAUSE` for `target - now` seconds. -/
def SessionPhaseManager.pause_until (m : SessionPhaseManager) (target now : Int) :
    SessionPhaseManager × List ManagerEvent :=
  m.start_phase SessionPhase.PAUSE (target - now) now

/-- `SessionPhaseManager.extend_current_phase(seconds=None)`. -/
def SessionPhaseManager.extend_current_phase (m : SessionPhaseManager)
    (seconds : Option Int) (now : Int) : SessionPhaseManager × List ManagerEvent :=
  let r := m.timer.extend now (pyOrDefault seconds m.settings.snooze_duration)
  ({ m with timer := r.1 }, r.2.flatMap (relayClockEvent m.phase))

/-- `SessionPhaseManager._on_timer_finished(missed_by_seconds)` at
instant `now`: beyond the late-restart threshold, restart a fresh work
session; otherwise cycle WORK → (`workEnded`, BREAK) and everything
else → WORK. -/
def SessionPhaseManager.on_timer_finished (m : SessionPhaseManager)
    (missed_by_seconds now : Int) : SessionPhaseManager × List ManagerEvent :=
  if LATE_FINISH_RESTART_THRESHOLD_SEC < missed_by_seconds then
    m.start now
  else if m.phase = SessionPhase.WORK then
    let r := m.start_break_phase none now
    (r.1, ManagerEvent.workEnded :: r.2)
  else
    m.start_work_phase none now

/-- `SessionPhaseManager.remaining_seconds()` at instant `now`. -/
def SessionPhaseManager.remaining_seconds (m : SessionPhaseManager) (now : Int) : Int :=
  m.timer.remaining_seconds now

/-- `SessionPhaseManager.ends_at()`. -/
def SessionPhaseManager.ends_at (m : SessionPhaseManager) : Option Int :=
  m.timer.ends_at

/-- Deliver `n` consecutive clock completions with `missed_by = 0` to
the manager, the `k`-th at instant `times k`, collecting each handler
invocation's emissions. -/
def runCompletions (m : SessionPhaseManager) (times : Nat → Int) :
    Nat → SessionPhaseManager × List (List ManagerEvent)
  | 0 => (m, [])
  | Nat.succ n =>
    let r := m.on_timer_finished 0 (times 0)
    let rest := runCompletions r.1 (fun k => times (k + 1)) n
    (rest.1, r.2 :: rest.2)

/-- Number of `workEnded` emissions in an event list. -/
def countWorkEnded : List ManagerEvent → Nat
  | [] => 0
  | ManagerEvent.workEnded :: rest => countWorkEnded rest + 1
  | _ :: rest => countWorkEnded rest

/-- Total `workEnded` emissions across a list of handler invocations. -/
def countWorkEndedAll (l : List (List ManagerEvent)) : Nat :=
  (l.map countWorkEnded).sum

/-- Warning scheduling only touches the warning timer: every other field
of the clock is preserved. -/
lemma schedule_phase_warning_frame (st : SleepRecoveryTimer) (now : Int) :
    (st.schedule_phase_warning now).1.ends_at = st.ends_at ∧
    (st.schedule_phase_warning now).1.last_heartbeat_at = st.last_heartbeat_at ∧
    (st.schedule_phase_warning now).1.phase_timer = st.phase_timer ∧
    (st.schedule_phase_warning now).1.heartbeat_active = st.heartbeat_active ∧
    (st.schedule_phase_warning now).1.sleep_gap_threshold_sec = st.sleep_gap_threshold_sec ∧
    (st.schedule_phase_warning now).1.phase_change_warning_sec = st.phase_change_warning_sec := by
  unfold SleepRecoveryTimer.schedule_phase_warning
  cases h : st.ends_at with
  | none => simp [h]
  | some e =>
    simp only [h]
    split <;> simp

/-- Case analysis of `_schedule_phase_warning` when a deadline is set:
within the warning window it emits immediately and leaves the warning
timer stopped, otherwise it arms the warning timer for the delay. -/
lemma schedule_phase_warning_spec (st : SleepRecoveryTimer) (now e : Int)
    (h : st.ends_at = some e) :
    (e - st.phase_change_warning_sec - now ≤ 0 →
       st.schedule_phase_warning now =
         ({ st with phase_warning_timer := { st.phase_warning_timer with active := false } },
          [ClockEvent.phaseEndingSoon])) ∧
    (0 < e - st.phase_change_warning_sec - now →
       st.schedule_phase_warning now =
         ({ st with phase_warning_timer := ⟨true, now, e - st.phase_change_warning_sec - now⟩ },
          [])) := by
  unfold SleepRecoveryTimer.schedule_phase_warning
  simp only [h]
  constructor
  · intro hle
    rw [if_pos hle]
  · intro hlt
    rw [if_neg (by omega)]

/-- Warning scheduling emits either nothing or a single immediate
`phaseEndingSoon`, and in the latter case the warning timer is left
stopped. -/
lemma schedule_phase_warning_events (st : SleepRecoveryTimer) (now : Int) :
    (st.schedule_phase_warning now).2 = [] ∨
    ((st.schedule_phase_warning now).2 = [ClockEvent.phaseEndingSoon] ∧
     (st.schedule_phase_warning now).1.phase_warning_timer.active = false) := by
  unfold SleepRecoveryTimer.schedule_phase_warning
  cases h : st.ends_at with
  | none => simp [h]
  | some e =>
    simp only [h]
    split
    · right
      simp
    · left
      simp

/-- Case analysis of `_recover_after_sleep` when a deadline is set:
overdue deadlines finish without re-arming, future deadlines re-arm the
phase timer with the corrected remaining time and reschedule the
warning. -/
lemma recover_after_sleep_spec (st : SleepRecoveryTimer) (now e : Int)
    (h : st.ends_at = some e) :
    (e - now ≤ 0 →
       st.recover_after_sleep now =
         ({ st with
             phase_timer := { st.phase_timer with active := false }
             phase_warning_timer := { st.phase_warning_timer with active := false } },
          [ClockEvent.finished |e - now|])) ∧
    (0 < e - now →
       st.recover_after_sleep now =
         ({ st with phase_timer := ⟨true, now, e - now⟩ }).schedule_phase_warning now) := by
  unfold SleepRecoveryTimer.recover_after_sleep
  simp only [h]
  constructor
  · intro hle
    rw [if_pos hle]
  · intro hlt
    rw [if_neg (by omega)]

/-- Sleep recovery never changes the deadline itself. -/
lemma recover_after_sleep_ends_at (st : SleepRecoveryTimer) (now : Int) :
    (st.recover_after_sleep now).1.ends_at = st.ends_at := by
  unfold SleepRecoveryTimer.recover_after_sleep
  cases h : st.ends_at with
  | none => simp [h]
  | some e =>
    simp only [h]
    split
    · simp [h]
    · rw [(schedule_phase_warning_frame _ now).1]

/-- The heartbeat handler never changes the deadline. -/
lemma on_heartbeat_timeout_ends_at (st : SleepRecoveryTimer) (now : Int) :
    (st.on_heartbeat_timeout now).1.ends_at = st.ends_at := by
  unfold SleepRecoveryTimer.on_heartbeat_timeout
  split
  · rw [recover_after_sleep_ends_at]
    simp [SleepRecoveryTimer.detect_sleep_gap]
  · simp [SleepRecoveryTimer.detect_sleep_gap]

/-- Core state facts after `start`: the deadline, heartbeat mark, phase
timer and heartbeat activity are set as the source sets them, and the
configuration is untouched. -/
lemma start_state (st : SleepRecoveryTimer) (now seconds : Int) :
    (st.start now seconds).1.ends_at = some (now + max 0 seconds) ∧
    (st.start now seconds).1.last_heartbeat_at = some now ∧
    (st.start now seconds).1.phase_timer = ⟨true, now, max 0 seconds⟩ ∧
    (st.start now seconds).1.heartbeat_active = true ∧
    (st.start now seconds).1.sleep_gap_threshold_sec = st.sleep_gap_threshold_sec ∧
    (st.start now seconds).1.phase_change_warning_sec = st.phase_change_warning_sec := by
  unfold SleepRecoveryTimer.start
  have hf := schedule_phase_warning_frame
    { st with
      ends_at := some (now + max 0 seconds)
      last_heartbeat_at := some now
      phase_timer := ⟨true, now, max 0 seconds⟩ } now
  exact ⟨by simp [hf.1], by simp [hf.2.1], by simp [hf.2.2.1], by simp,
         by simp [hf.2.2.2.2.1], by simp [hf.2.2.2.2.2]⟩

/-- `start` never emits `finished`: its only possible synchronous
emission is the scheduled warning's immediate `phaseEndingSoon`. -/
lemma start_emits_no_finished (st : SleepRecoveryTimer) (now seconds k : Int) :
    ClockEvent.finished k ∉ (st.start now seconds).2 := by
  unfold SleepRecoveryTimer.start
  rcases schedule_phase_warning_events
    { st with
      ends_at := some (now + max 0 seconds)
      last_heartbeat_at := some now
      phase_timer := ⟨true, now, max 0 seconds⟩ } now with h | h
  · simp [h]
  · simp [h.1]

/-- `extend` never emits `finished` either. -/
lemma extend_emits_no_finished (st : SleepRecoveryTimer) (now seconds k : Int) :
    ClockEvent.finished k ∉ (st.extend now seconds).2 := by
  unfold SleepRecoveryTimer.extend
  cases h : st.ends_at with
  | none => simp [h]
  | some e =>
    simp only [h]
    rcases schedule_phase_warning_events
      { st with
        ends_at := some (e + seconds)
        phase_timer := ⟨true, now, max 0 (e + seconds - now)⟩ } now with h2 | h2
    · simp [h2]
    · simp [h2.1]

/-- Value of `remaining_seconds` queried at the very instant the phase
timer was (re)started with interval `i`. -/
lemma remaining_seconds_fresh (st : SleepRecoveryTimer) (now i : Int)
    (h : st.phase_timer = ⟨true, now, i⟩) :
    st.remaining_seconds now = i := by
  unfold SleepRecoveryTimer.remaining_seconds QTimerState.remainingTimeMs pyFloorDiv
  rw [h]
  simp

/-- Observable description of the future-deadline branch of
`_recover_after_sleep`: the phase timer is re-armed with the exact
remaining time and the warning is rescheduled against the unchanged
deadline (armed for the delay, or emitted at once when already in the
warning window). -/
lemma recover_after_sleep_pos (st : SleepRecoveryTimer) (now e : Int)
    (h : st.ends_at = some e) (hlt : 0 < e - now) :
    (st.recover_after_sleep now).1.phase_timer = ⟨true, now, e - now⟩ ∧
    (st.recover_after_sleep now).1.ends_at = some e ∧
    (0 < e - st.phase_change_warning_sec - now →
       (st.recover_after_sleep now).1.phase_warning_timer =
         ⟨true, now, e - st.phase_change_warning_sec - now⟩ ∧
       (st.recover_after_sleep now).2 = []) ∧
    (e - st.phase_change_warning_sec - now ≤ 0 →
       (st.recover_after_sleep now).2 = [ClockEvent.phaseEndingSoon] ∧
       (st.recover_after_sleep now).1.phase_warning_timer.active = false) := by
  unfold SleepRecoveryTimer.recover_after_sleep
  simp only [h]
  rw [if_neg (by omega)]
  unfold SleepRecoveryTimer.schedule_phase_warning
  simp only [h]
  by_cases hwc : e - st.phase_change_warning_sec - now ≤ 0
  · rw [if_pos hwc]
    refine ⟨rfl, rfl, ?_, ?_⟩
    · intro hx
      exact absurd hwc (by omega)
    · intro _
      exact ⟨rfl, rfl⟩
  · rw [if_neg hwc]
    refine ⟨rfl, rfl, ?_, ?_⟩
    · intro _
      exact ⟨rfl, rfl⟩
    · intro hx
      exact absurd hx (by omega)

/-- C1: on a heartbeat-detected sleep gap with deadline `D`, the
handler recomputes `remaining = D - now`; if `remaining ≤ 0` it stops
the completion and warning timers and emits `finished(|remaining|)`
without re-arming, else it restarts the completion timer with exactly
the corrected remaining value and reschedules the warning against the
unchanged deadline. In particular after `start(180)` at `T0` a
heartbeat at `T0 + 5000` emits `finished(4820)` and does not re-arm. -/
theorem C1_sleep_gap_correction :
    (∀ (st : SleepRecoveryTimer) (now D : Int), st.ends_at = some D →
      ((D - now ≤ 0 →
          (st.recover_after_sleep now).2 = [ClockEvent.finished |D - now|] ∧
          (st.recover_after_sleep now).1.phase_timer.active = false ∧
          (st.recover_after_sleep now).1.phase_warning_timer.active = false ∧
          (st.recover_after_sleep now).1.ends_at = some D) ∧
       (0 < D - now →
          (st.recover_after_sleep now).1.phase_timer = ⟨true, now, D - now⟩ ∧
          (st.recover_after_sleep now).1.ends_at = some D ∧
          (0 < D - st.phase_change_warning_sec - now →
             (st.recover_after_sleep now).1.phase_warning_timer =
               ⟨true, now, D - st.phase_change_warning_sec - now⟩ ∧
             (st.recover_after_sleep now).2 = []) ∧
          (D - st.phase_change_warning_sec - now ≤ 0 →
             (st.recover_after_sleep now).2 = [ClockEvent.phaseEndingSoon] ∧
             (st.recover_after_sleep now).1.phase_warning_timer.active = false)))) ∧
    (∀ T0 : Int,
      (stepClock (SleepRecoveryTimer.init.start T0 180).1 (ClockOp.heartbeat (T0 + 5000))).2 =
        [ClockEvent.finished 4820] ∧
      (stepClock (SleepRecoveryTimer.init.start T0 180).1
          (ClockOp.heartbeat (T0 + 5000))).1.phase_timer.active = false) := by
  constructor
  · intro st now D hD
    constructor
    · intro hle
      rw [(recover_after_sleep_spec st now D hD).1 hle]
      exact ⟨rfl, rfl, rfl, by simp [hD]⟩
    · intro hlt
      exact recover_after_sleep_pos st now D hD hlt
  · intro T0
    have hs := start_state SleepRecoveryTimer.init T0 180
    have hmax : (max 0 (180 : Int)) = 180 := by norm_num
    rw [hmax] at hs
    have hA : (SleepRecoveryTimer.init.start T0 180).1.heartbeat_active = true := hs.2.2.2.1
    have hdet : ((SleepRecoveryTimer.init.start T0 180).1.detect_sleep_gap (T0 + 5000)).1
        = true := by
      simp [SleepRecoveryTimer.detect_sleep_gap, hs.2.1, hs.2.2.2.2.1]
      rw [show SleepRecoveryTimer.init.sleep_gap_threshold_sec = 30 from rfl]
      omega
    have hE2 : ((SleepRecoveryTimer.init.start T0 180).1.detect_sleep_gap (T0 + 5000)).2.ends_at
        = some (T0 + 180) := by
      simp [SleepRecoveryTimer.detect_sleep_gap]
      exact hs.1
    have hrec := (recover_after_sleep_spec _ (T0 + 5000) (T0 + 180) hE2).1 (by omega)
    have habs : |T0 + 180 - (T0 + 5000)| = (4820 : Int) := by
      rw [show T0 + 180 - (T0 + 5000) = (-4820 : Int) by ring]
      decide
    rw [habs] at hrec
    constructor
    · show (stepClock _ _).2 = _
      simp only [stepClock]
      rw [hA, if_pos rfl]
      unfold SleepRecoveryTimer.on_heartbeat_timeout
      rw [hdet, if_pos rfl, hrec]
    · show (stepClock _ _).1.phase_timer.active = false
      simp only [stepClock]
      rw [hA, if_pos rfl]
      unfold SleepRecoveryTimer.on_heartbeat_timeout
      rw [hdet, if_pos rfl, hrec]

/-- Closed instance of C1: the clock started for 180 seconds at time 0
and recovered at time 5000 finishes with `missed_by = 4820`. -/
theorem C1_sleep_gap_correction_witness :
    ((SleepRecoveryTimer.init.start 0 180).1.recover_after_sleep 5000).2 =
      [ClockEvent.finished 4820] := by
  have h := (C1_sleep_gap_correction.1 (SleepRecoveryTimer.init.start 0 180).1 5000 180
    (by decide)).1 (by decide)
  rw [h.1]
  decide

/-- State facts after `extend` with a set deadline: the deadline moves
by `seconds` and the phase timer is re-armed with the clamped remaining
time. -/
lemma extend_state (st : SleepRecoveryTimer) (now s e : Int) (h : st.ends_at = some e) :
    (st.extend now s).1.ends_at = some (e + s) ∧
    (st.extend now s).1.phase_timer = ⟨true, now, max 0 (e + s - now)⟩ := by
  unfold SleepRecoveryTimer.extend
  simp only [h]
  have hfr := schedule_phase_warning_frame
    { st with ends_at := some (e + s), phase_timer := ⟨true, now, max 0 (e + s - now)⟩ } now
  exact ⟨by simp [hfr.1], by simp [hfr.2.2.1]⟩

/-- C4: for a running clock with deadline `D` and `s > 0`, `extend(s)`
moves `ends_at` to exactly `D + s`, and `remaining_seconds()` at the
instant of the call equals `ends_at - now` clamped to `≥ 0`; with the
deadline unset, `extend` is a complete no-op. -/
theorem C4_extend_deadline_monotonicity :
    (∀ (st : SleepRecoveryTimer) (now s D : Int), st.ends_at = some D → 0 < s →
       (st.extend now s).1.ends_at = some (D + s) ∧
       (st.extend now s).1.remaining_seconds now = max 0 (D + s - now)) ∧
    (∀ (st : SleepRecoveryTimer) (now s : Int), st.ends_at = none →
       st.extend now s = (st, [])) := by
  constructor
  · intro st now s D hD hs
    have he := extend_state st now s D hD
    exact ⟨he.1, remaining_seconds_fresh _ now _ he.2⟩
  · intro st now s h
    unfold SleepRecoveryTimer.extend
    simp only [h]

/-- Closed instance of C4: a clock started for 100 seconds at time 0 and
extended by 5 seconds at time 10 has deadline 105 and 95 seconds
remaining. -/
theorem C4_extend_deadline_monotonicity_witness :
    ((SleepRecoveryTimer.init.start 0 100).1.extend 10 5).1.ends_at = some 105 ∧
    ((SleepRecoveryTimer.init.start 0 100).1.extend 10 5).1.remaining_seconds 10 = 95 := by
  have h := C4_extend_deadline_monotonicity.1 (SleepRecoveryTimer.init.start 0 100).1 10 5 100
    (by decide) (by decide)
  refine ⟨h.1, ?_⟩
  rw [h.2]
  decide

/-- Counterexample to C7 as stated: `detect_sleep_gap` mutates the
heartbeat mark even when probed externally (outside the heartbeat
handler). The clock is started at time 0 (mark `some 0`); an external
probe at time 100 overwrites the mark with 100, which flips the outcome
of a subsequent detection at time 101 from gap to no-gap. -/
theorem C7_detect_sleep_gap_counterexample :
    (stepClock (SleepRecoveryTimer.init.start 0 180).1 (ClockOp.probeGap 100)).1.last_heartbeat_at
      = some 100 ∧
    (SleepRecoveryTimer.init.start 0 180).1.last_heartbeat_at = some 0 ∧
    ((stepClock (SleepRecoveryTimer.init.start 0 180).1
        (ClockOp.probeGap 100)).1.detect_sleep_gap 101).1 = false ∧
    ((SleepRecoveryTimer.init.start 0 180).1.detect_sleep_gap 101).1 = true := by
  refine ⟨?_, ?_, ?_, ?_⟩ <;> decide

/-- C7 (amended): `detect_sleep_gap(now)` returns true iff the
heartbeat mark is set and `now - mark` strictly exceeds the configured
sleep-gap threshold, and it always updates the mark to `now` as a side
effect, whoever the caller is; no other state is touched. -/
theorem C7_detect_sleep_gap_amended :
    ∀ (st : SleepRecoveryTimer) (now : Int),
      ((st.detect_sleep_gap now).1 = true ↔
        ∃ m, st.last_heartbeat_at = some m ∧ st.sleep_gap_threshold_sec < now - m) ∧
      (st.detect_sleep_gap now).2.last_heartbeat_at = some now ∧
      (st.detect_sleep_gap now).2.ends_at = st.ends_at ∧
      (st.detect_sleep_gap now).2.phase_timer = st.phase_timer ∧
      (st.detect_sleep_gap now).2.phase_warning_timer = st.phase_warning_timer ∧
      (st.detect_sleep_gap now).2.heartbeat_active = st.heartbeat_active := by
  intro st now
  unfold SleepRecoveryTimer.detect_sleep_gap
  refine ⟨?_, rfl, rfl, rfl, rfl, rfl⟩
  cases h : st.last_heartbeat_at with
  | none => simp [h]
  | some m => simp [h]

/-- Closed instance of the amended C7: a probe of the clock started at
time 0, made at time 100, detects the gap and moves the mark to 100. -/
theorem C7_detect_sleep_gap_amended_witness :
    ((SleepRecoveryTimer.init.start 0 180).1.detect_sleep_gap 100).1 = true ∧
    ((SleepRecoveryTimer.init.start 0 180).1.detect_sleep_gap 100).2.last_heartbeat_at
      = some 100 := by
  have h := C7_detect_sleep_gap_amended (SleepRecoveryTimer.init.start 0 180).1 100
  exact ⟨h.1.2 ⟨0, by decide, by decide⟩, h.2.1⟩

/-- `_start_phase` sets the phase, keeps the settings and starts the
clock. -/
lemma start_phase_state (m : SessionPhaseManager) (p : SessionPhase) (s now : Int) :
    (m.start_phase p s now).1.phase = p ∧
    (m.start_phase p s now).1.settings = m.settings ∧
    (m.start_phase p s now).1.timer = (m.timer.start now s).1 := by
  unfold SessionPhaseManager.start_phase
  exact ⟨rfl, rfl, rfl⟩

/-- Python's `0 or d` picks the default. -/
lemma pyOrDefault_zero (d : Int) : pyOrDefault (some 0) d = d := by
  simp [pyOrDefault]

/-- Python's `None or d` picks the default. -/
lemma pyOrDefault_none (d : Int) : pyOrDefault none d = d := rfl

/-- C8: passing an explicit duration of `0` to `start_work_phase`,
`start_break_phase` or `extend_current_phase` behaves exactly like
passing no duration — the configured default is substituted, because
`seconds or default` treats `0` as falsy — so the work/break phase is
armed for the default duration rather than 0 seconds. -/
theorem C8_zero_duration_fallback :
    ∀ (m : SessionPhaseManager) (now : Int),
      m.start_work_phase (some 0) now = m.start_work_phase none now ∧
      m.start_break_phase (some 0) now = m.start_break_phase none now ∧
      m.extend_current_phase (some 0) now = m.extend_current_phase none now ∧
      (m.start_work_phase (some 0) now).1.timer.ends_at =
        some (now + max 0 m.settings.work_duration) ∧
      (m.start_break_phase (some 0) now).1.timer.ends_at =
        some (now + max 0 m.settings.break_duration) := by
  intro m now
  refine ⟨?_, ?_, ?_, ?_, ?_⟩
  · unfold SessionPhaseManager.start_work_phase
    rw [pyOrDefault_zero, pyOrDefault_none]
  · unfold SessionPhaseManager.start_break_phase
    rw [pyOrDefault_zero, pyOrDefault_none]
  · unfold SessionPhaseManager.extend_current_phase
    rw [pyOrDefault_zero, pyOrDefault_none]
  · unfold SessionPhaseManager.start_work_phase
    rw [pyOrDefault_zero, (start_phase_state m SessionPhase.WORK m.settings.work_duration now).2.2,
        (start_state m.timer now m.settings.work_duration).1]
  · unfold SessionPhaseManager.start_break_phase
    rw [pyOrDefault_zero,
        (start_phase_state m SessionPhase.BREAK m.settings.break_duration now).2.2,
        (start_state m.timer now m.settings.break_duration).1]

/-- C9: `pause_until(target)` transitions into `PAUSE` with duration
`target - now` (clamped to `≥ 0` by the clock's `start`), and at the
instant of the call `remaining_seconds()` is that clamped duration; in
particular `pause_until(now + 90)` gives phase `PAUSE` with 90 seconds
remaining. -/
theorem C9_pause_until_absolute_time :
    ∀ (m : SessionPhaseManager) (target now : Int),
      (m.pause_until target now).1.phase = SessionPhase.PAUSE ∧
      (m.pause_until target now).1.ends_at = some (now + max 0 (target - now)) ∧
      (m.pause_until target now).1.remaining_seconds now = max 0 (target - now) ∧
      (m.pause_until (now + 90) now).1.phase = SessionPhase.PAUSE ∧
      (m.pause_until (now + 90) now).1.remaining_seconds now = 90 := by
  intro m target now
  have key : ∀ t : Int,
      (m.pause_until t now).1.phase = SessionPhase.PAUSE ∧
      (m.pause_until t now).1.ends_at = some (now + max 0 (t - now)) ∧
      (m.pause_until t now).1.remaining_seconds now = max 0 (t - now) := by
    intro t
    unfold SessionPhaseManager.pause_until
    have hs := start_phase_state m SessionPhase.PAUSE (t - now) now
    refine ⟨hs.1, ?_, ?_⟩
    · show (m.start_phase SessionPhase.PAUSE (t - now) now).1.timer.ends_at = _
      rw [hs.2.2, (start_state m.timer now (t - now)).1]
    · show (m.start_phase SessionPhase.PAUSE (t - now) now).1.timer.remaining_seconds now = _
      rw [hs.2.2]
      exact remaining_seconds_fresh _ now _ (start_state m.timer now (t - now)).2.2.1
  have h90 := key (now + 90)
  have hm : max 0 (now + 90 - now) = (90 : Int) := by
    rw [show now + 90 - now = (90 : Int) by ring]
    norm_num
  refine ⟨(key target).1, (key target).2.1, (key target).2.2, h90.1, ?_⟩
  rw [h90.2.2, hm]

/-- Relayed clock events never contain `workEnded`. -/
lemma relay_no_workEnded (p : SessionPhase) (cevs : List ClockEvent) :
    ManagerEvent.workEnded ∉ cevs.flatMap (relayClockEvent p) := by
  induction cevs with
  | nil => simp
  | cons a rest ih => cases a <;> simp [relayClockEvent, ih]

/-- Counting `workEnded` distributes over list append. -/
lemma countWorkEnded_append (l1 l2 : List ManagerEvent) :
    countWorkEnded (l1 ++ l2) = countWorkEnded l1 + countWorkEnded l2 := by
  induction l1 with
  | nil => simp [countWorkEnded]
  | cons a rest ih =>
    cases a <;> simp [countWorkEnded, ih]
    omega

/-- Relayed clock events count zero `workEnded` emissions. -/
lemma relay_countWorkEnded (p : SessionPhase) (cevs : List ClockEvent) :
    countWorkEnded (cevs.flatMap (relayClockEvent p)) = 0 := by
  induction cevs with
  | nil => rfl
  | cons a rest ih =>
    have hc : (a :: rest).flatMap (relayClockEvent p) =
        relayClockEvent p a ++ rest.flatMap (relayClockEvent p) := rfl
    rw [hc, countWorkEnded_append, ih]
    cases a <;> simp [relayClockEvent, countWorkEnded]

/-- `_start_phase` emits no `workEnded` at all. -/
lemma start_phase_no_workEnded (m : SessionPhaseManager) (p : SessionPhase) (s now : Int) :
    ManagerEvent.workEnded ∉ (m.start_phase p s now).2 ∧
    countWorkEnded (m.start_phase p s now).2 = 0 := by
  unfold SessionPhaseManager.start_phase
  constructor
  · simp only [List.mem_cons]
    rintro (h | h)
    · cases h
    · exact relay_no_workEnded p _ h
  · simp [countWorkEnded, relay_countWorkEnded]

/-- Beyond the late-restart threshold the handler is a fresh session
start. -/
lemma on_timer_finished_late (m : SessionPhaseManager) (k now : Int)
    (h : LATE_FINISH_RESTART_THRESHOLD_SEC < k) :
    m.on_timer_finished k now = m.start now := by
  unfold SessionPhaseManager.on_timer_finished
  rw [if_pos h]

/-- At or below the threshold with phase `WORK`, the handler emits
`workEnded` and starts the break phase. -/
lemma on_timer_finished_work (m : SessionPhaseManager) (k now : Int)
    (hk : ¬ LATE_FINISH_RESTART_THRESHOLD_SEC < k) (hp : m.phase = SessionPhase.WORK) :
    m.on_timer_finished k now =
      ((m.start_break_phase none now).1,
       ManagerEvent.workEnded :: (m.start_break_phase none now).2) := by
  unfold SessionPhaseManager.on_timer_finished
  rw [if_neg hk, if_pos hp]

/-- At or below the threshold with phase `BREAK` or `PAUSE`, the handler
starts the work phase. -/
lemma on_timer_finished_other (m : SessionPhaseManager) (k now : Int)
    (hk : ¬ LATE_FINISH_RESTART_THRESHOLD_SEC < k) (hp : ¬ m.phase = SessionPhase.WORK) :
    m.on_timer_finished k now = m.start_work_phase none now := by
  unfold SessionPhaseManager.on_timer_finished
  rw [if_neg hk, if_neg hp]

/-- C2: `_on_timer_finished(missed_by = 300)` — exactly the threshold —
performs the normal cycle transition (WORK emits `workEnded` and moves
to BREAK, anything else moves to WORK), while any `missed_by` above the
threshold forces the phase to WORK regardless of the prior phase and
never emits `workEnded`. -/
theorem C2_late_restart_threshold_boundary :
    ∀ (m : SessionPhaseManager) (now : Int),
      ((m.phase = SessionPhase.WORK →
          (m.on_timer_finished LATE_FINISH_RESTART_THRESHOLD_SEC now).1.phase
            = SessionPhase.BREAK ∧
          ManagerEvent.workEnded
            ∈ (m.on_timer_finished LATE_FINISH_RESTART_THRESHOLD_SEC now).2) ∧
       (m.phase ≠ SessionPhase.WORK →
          (m.on_timer_finished LATE_FINISH_RESTART_THRESHOLD_SEC now).1.phase
            = SessionPhase.WORK ∧
          ManagerEvent.workEnded
            ∉ (m.on_timer_finished LATE_FINISH_RESTART_THRESHOLD_SEC now).2)) ∧
      (∀ k : Int, LATE_FINISH_RESTART_THRESHOLD_SEC < k →
          (m.on_timer_finished k now).1.phase = SessionPhase.WORK ∧
          ManagerEvent.workEnded ∉ (m.on_timer_finished k now).2) := by
  intro m now
  refine ⟨⟨?_, ?_⟩, ?_⟩
  · intro hp
    rw [on_timer_finished_work m _ now (lt_irrefl _) hp]
    exact ⟨(start_phase_state m SessionPhase.BREAK _ now).1, List.mem_cons_self _ _⟩
  · intro hp
    rw [on_timer_finished_other m _ now (lt_irrefl _) hp]
    exact ⟨(start_phase_state m SessionPhase.WORK _ now).1,
           (start_phase_no_workEnded m SessionPhase.WORK _ now).1⟩
  · intro k hk
    rw [on_timer_finished_late m k now hk]
    exact ⟨(start_phase_state m SessionPhase.WORK _ now).1,
           (start_phase_no_workEnded m SessionPhase.WORK _ now).1⟩

/-- Closed instance of C2: from WORK, `missed_by = 300` moves to BREAK
while `missed_by = 301` forces WORK. -/
theorem C2_late_restart_threshold_boundary_witness :
    (SessionPhaseManager.on_timer_finished
        ⟨⟨1500, 300, 60⟩, SessionPhase.WORK, SleepRecoveryTimer.init⟩ 300 0).1.phase
      = SessionPhase.BREAK ∧
    (SessionPhaseManager.on_timer_finished
        ⟨⟨1500, 300, 60⟩, SessionPhase.WORK, SleepRecoveryTimer.init⟩ 301 0).1.phase
      = SessionPhase.WORK := by
  have h := C2_late_restart_threshold_boundary
    ⟨⟨1500, 300, 60⟩, SessionPhase.WORK, SleepRecoveryTimer.init⟩ 0
  exact ⟨(h.1.1 rfl).1, (h.2 301 (by decide)).1⟩

/-- `start_work_phase` is `_start_phase WORK` with the substituted
duration. -/
lemma start_work_phase_eq (m : SessionPhaseManager) (s : Option Int) (now : Int) :
    m.start_work_phase s now =
      m.start_phase SessionPhase.WORK (pyOrDefault s m.settings.work_duration) now := rfl

/-- `start_break_phase` is `_start_phase BREAK` with the substituted
duration. -/
lemma start_break_phase_eq (m : SessionPhaseManager) (s : Option Int) (now : Int) :
    m.start_break_phase s now =
      m.start_phase SessionPhase.BREAK (pyOrDefault s m.settings.break_duration) now := rfl

/-- `countWorkEndedAll` over a cons of handler emissions. -/
lemma countWorkEndedAll_cons (x : List ManagerEvent) (l : List (List ManagerEvent)) :
    countWorkEndedAll (x :: l) = countWorkEnded x + countWorkEndedAll l := by
  simp [countWorkEndedAll]

/-- Alternation of phases and `workEnded` counting under on-time
completions, simultaneously from a WORK start and from a BREAK start. -/
lemma runCompletions_alternation :
    ∀ (N : Nat) (m : SessionPhaseManager) (times : Nat → Int),
      (m.phase = SessionPhase.WORK →
         (runCompletions m times N).1.phase
           = (if N % 2 = 0 then SessionPhase.WORK else SessionPhase.BREAK) ∧
         countWorkEndedAll (runCompletions m times N).2 = (N + 1) / 2) ∧
      (m.phase = SessionPhase.BREAK →
         (runCompletions m times N).1.phase
           = (if N % 2 = 0 then SessionPhase.BREAK else SessionPhase.WORK) ∧
         countWorkEndedAll (runCompletions m times N).2 = N / 2) := by
  intro N
  induction N with
  | zero =>
    intro m times
    constructor <;> intro h
    · exact ⟨by simp [runCompletions, h], by simp [runCompletions, countWorkEndedAll]⟩
    · exact ⟨by simp [runCompletions, h], by simp [runCompletions, countWorkEndedAll]⟩
  | succ n ih =>
    intro m times
    have hk : ¬ LATE_FINISH_RESTART_THRESHOLD_SEC < (0 : Int) := by decide
    constructor
    · intro h
      have hstep := on_timer_finished_work m 0 (times 0) hk h
      have hphase : (m.on_timer_finished 0 (times 0)).1.phase = SessionPhase.BREAK := by
        rw [hstep]
        exact (start_phase_state m SessionPhase.BREAK _ (times 0)).1
      have hcount : countWorkEnded (m.on_timer_finished 0 (times 0)).2 = 1 := by
        rw [hstep]
        show countWorkEnded (ManagerEvent.workEnded :: (m.start_break_phase none (times 0)).2) = 1
        rw [show countWorkEnded (ManagerEvent.workEnded :: (m.start_break_phase none (times 0)).2)
              = countWorkEnded (m.start_break_phase none (times 0)).2 + 1 from rfl,
            start_break_phase_eq, (start_phase_no_workEnded m SessionPhase.BREAK _ (times 0)).2]
      have hrest := (ih (m.on_timer_finished 0 (times 0)).1 (fun k => times (k + 1))).2 hphase
      refine ⟨?_, ?_⟩
      · show (runCompletions (m.on_timer_finished 0 (times 0)).1
            (fun k => times (k + 1)) n).1.phase = _
        rw [hrest.1]
        by_cases hn : n % 2 = 0
        · rw [if_pos hn, if_neg (by omega)]
        · rw [if_neg hn, if_pos (by omega)]
      · show countWorkEndedAll ((m.on_timer_finished 0 (times 0)).2 ::
            (runCompletions (m.on_timer_finished 0 (times 0)).1
              (fun k => times (k + 1)) n).2) = (n + 1 + 1) / 2
        rw [countWorkEndedAll_cons, hcount, hrest.2]
        omega
    · intro h
      have hp : ¬ m.phase = SessionPhase.WORK := by rw [h]; intro hx; cases hx
      have hstep := on_timer_finished_other m 0 (times 0) hk hp
      have hphase : (m.on_timer_finished 0 (times 0)).1.phase = SessionPhase.WORK := by
        rw [hstep, start_work_phase_eq]
        exact (start_phase_state m SessionPhase.WORK _ (times 0)).1
      have hcount : countWorkEnded (m.on_timer_finished 0 (times 0)).2 = 0 := by
        rw [hstep, start_work_phase_eq]
        exact (start_phase_no_workEnded m SessionPhase.WORK _ (times 0)).2
      have hrest := (ih (m.on_timer_finished 0 (times 0)).1 (fun k => times (k + 1))).1 hphase
      refine ⟨?_, ?_⟩
      · show (runCompletions (m.on_timer_finished 0 (times 0)).1
            (fun k => times (k + 1)) n).1.phase = _
        rw [hrest.1]
        by_cases hn : n % 2 = 0
        · rw [if_pos hn, if_neg (by omega)]
        · rw [if_neg hn, if_pos (by omega)]
      · show countWorkEndedAll ((m.on_timer_finished 0 (times 0)).2 ::
            (runCompletions (m.on_timer_finished 0 (times 0)).1
              (fun k => times (k + 1)) n).2) = (n + 1) / 2
        rw [countWorkEndedAll_cons, hcount, hrest.2]
        omega

/-- C3: starting in WORK, `N` on-time completions alternate
WORK, BREAK, WORK, … deterministically with `workEnded` emitted exactly
once per WORK→BREAK edge (so `(N+1)/2` times in total); on each
WORK completion `workEnded` precedes the `phaseChanged(WORK, BREAK)`
that starts the break; a completion in BREAK or PAUSE moves to WORK and
emits no `workEnded`. -/
theorem C3_phase_cycle_determinism :
    (∀ (m : SessionPhaseManager) (times : Nat → Int) (N : Nat),
       m.phase = SessionPhase.WORK →
         (runCompletions m times N).1.phase
           = (if N % 2 = 0 then SessionPhase.WORK else SessionPhase.BREAK) ∧
         countWorkEndedAll (runCompletions m times N).2 = (N + 1) / 2) ∧
    (∀ (m : SessionPhaseManager) (now : Int),
       m.phase = SessionPhase.WORK →
         (m.on_timer_finished 0 now).1.phase = SessionPhase.BREAK ∧
         ∃ tail, (m.on_timer_finished 0 now).2 =
             ManagerEvent.workEnded ::
               ManagerEvent.phaseChanged SessionPhase.WORK SessionPhase.BREAK :: tail ∧
           countWorkEnded tail = 0) ∧
    (∀ (m : SessionPhaseManager) (now : Int),
       m.phase ≠ SessionPhase.WORK →
         (m.on_timer_finished 0 now).1.phase = SessionPhase.WORK ∧
         countWorkEnded (m.on_timer_finished 0 now).2 = 0) := by
  refine ⟨?_, ?_, ?_⟩
  · intro m times N h
    exact (runCompletions_alternation N m times).1 h
  · intro m now hp
    have hstep := on_timer_finished_work m 0 now (by decide) hp
    constructor
    · rw [hstep]
      exact (start_phase_state m SessionPhase.BREAK _ now).1
    · refine ⟨(m.timer.start now (pyOrDefault none m.settings.break_duration)).2.flatMap
        (relayClockEvent SessionPhase.BREAK), ?_, relay_countWorkEnded _ _⟩
      rw [hstep]
      show ManagerEvent.workEnded ::
          (m.start_phase SessionPhase.BREAK (pyOrDefault none m.settings.break_duration) now).2
        = _
      unfold SessionPhaseManager.start_phase
      rw [hp]
  · intro m now hp
    have hstep := on_timer_finished_other m 0 now (by decide) hp
    rw [hstep, start_work_phase_eq]
    exact ⟨(start_phase_state m SessionPhase.WORK _ now).1,
           (start_phase_no_workEnded m SessionPhase.WORK _ now).2⟩

/-- Closed instance of C3: from WORK, two on-time completions end back
in WORK having emitted `workEnded` exactly once. -/
theorem C3_phase_cycle_determinism_witness :
    (runCompletions ⟨⟨1500, 300, 60⟩, SessionPhase.WORK, SleepRecoveryTimer.init⟩
        (fun _ => 0) 2).1.phase = SessionPhase.WORK ∧
    countWorkEndedAll (runCompletions ⟨⟨1500, 300, 60⟩, SessionPhase.WORK,
        SleepRecoveryTimer.init⟩ (fun _ => 0) 2).2 = 1 := by
  have h := C3_phase_cycle_determinism.1
    ⟨⟨1500, 300, 60⟩, SessionPhase.WORK, SleepRecoveryTimer.init⟩ (fun _ => 0) 2 rfl
  exact ⟨h.1.trans (by decide), h.2.trans (by decide)⟩

/-- C10 (implicit): the completion timer's natural timeout handler
always emits `finished(0)`; a strictly positive `missed_by` can only
come from a heartbeat sleep-recovery step; consequently an on-time
completion from WORK takes the normal `workEnded`/BREAK transition,
never the late-finish restart. -/
theorem C10_on_time_completion_missed_by_zero :
    (∀ st : SleepRecoveryTimer, st.phase_timer.active = true →
       (stepClock st ClockOp.phaseTimeout).2 = [ClockEvent.finished 0]) ∧
    (∀ (st : SleepRecoveryTimer) (op : ClockOp) (k : Int),
       ClockEvent.finished k ∈ (stepClock st op).2 → 0 < k →
       ∃ now, op = ClockOp.heartbeat now) ∧
    (∀ (m : SessionPhaseManager) (now : Int), m.phase = SessionPhase.WORK →
       (m.on_timer_finished 0 now).1.phase = SessionPhase.BREAK ∧
       ManagerEvent.workEnded ∈ (m.on_timer_finished 0 now).2) := by
  refine ⟨?_, ?_, ?_⟩
  · intro st h
    simp only [stepClock]
    rw [h, if_pos rfl]
    rfl
  · intro st op k hmem hk
    cases op with
    | start now s => exact absurd hmem (start_emits_no_finished st now s k)
    | stop => simp [stepClock] at hmem
    | extend now s => exact absurd hmem (extend_emits_no_finished st now s k)
    | heartbeat now => exact ⟨now, rfl⟩
    | phaseTimeout =>
      simp only [stepClock] at hmem
      split at hmem
      · simp [SleepRecoveryTimer.on_phase_timer_timeout] at hmem
        omega
      · simp at hmem
    | warningTimeout =>
      simp only [stepClock] at hmem
      split at hmem
      · simp at hmem
      · simp at hmem
    | probeGap now => simp [stepClock] at hmem
  · intro m now hp
    have hstep := on_timer_finished_work m 0 now (by decide) hp
    rw [hstep]
    exact ⟨(start_phase_state m SessionPhase.BREAK _ now).1, List.mem_cons_self _ _⟩

/-- Closed instance of C10: a running clock's natural timeout emits
`finished(0)`. -/
theorem C10_on_time_completion_missed_by_zero_witness :
    (stepClock (SleepRecoveryTimer.init.start 0 10).1 ClockOp.phaseTimeout).2 =
      [ClockEvent.finished 0] :=
  C10_on_time_completion_missed_by_zero.1 (SleepRecoveryTimer.init.start 0 10).1 (by decide)

/-- Whether every `extend` in a sequence of clock operations carries a
non-negative amount (the program only extends by validated positive
snooze/override durations). -/
def extendsNonneg : List ClockOp → Bool
  | [] => true
  | ClockOp.extend _ s :: rest => decide (0 ≤ s) && extendsNonneg rest
  | _ :: rest => extendsNonneg rest

/-- Non-negativity of a single operation's extend amount (trivial for
anything but `extend`). -/
def opExtendNonneg : ClockOp → Prop
  | ClockOp.extend _ s => 0 ≤ s
  | _ => True

/-- Ghost bookkeeping for C5: the instant at which the current deadline
was set — the `now` of the latest `start`, cleared by `stop`. -/
def setAtUpdate (setAt : Option Int) : ClockOp → Option Int
  | ClockOp.start now _ => some now
  | ClockOp.stop => none
  | _ => setAt

/-- Run clock operations while tracking the set-at ghost state. -/
def runClockSetAt (st : SleepRecoveryTimer) (setAt : Option Int) :
    List ClockOp → SleepRecoveryTimer × Option Int
  | [] => (st, setAt)
  | op :: ops => runClockSetAt (stepClock st op).1 (setAtUpdate setAt op) ops

/-- Splitting `extendsNonneg` at a cons. -/
lemma extendsNonneg_cons (op : ClockOp) (rest : List ClockOp)
    (h : extendsNonneg (op :: rest) = true) :
    opExtendNonneg op ∧ extendsNonneg rest = true := by
  cases op with
  | extend now s =>
    simp [extendsNonneg] at h
    exact ⟨h.1, h.2⟩
  | start now s => exact ⟨trivial, h⟩
  | stop => exact ⟨trivial, h⟩
  | heartbeat now => exact ⟨trivial, h⟩
  | phaseTimeout => exact ⟨trivial, h⟩
  | warningTimeout => exact ⟨trivial, h⟩
  | probeGap now => exact ⟨trivial, h⟩

/-- `extend` on an unset deadline is a no-op. -/
lemma extend_unset (st : SleepRecoveryTimer) (now s : Int) (h : st.ends_at = none) :
    st.extend now s = (st, []) := by
  unfold SleepRecoveryTimer.extend
  simp only [h]

/-- One step preserves the "deadline is at or after the instant it was
set" invariant, provided an `extend` amount is non-negative. -/
lemma step_preserves_deadline_inv (st : SleepRecoveryTimer) (setAt : Option Int) (op : ClockOp)
    (hop : opExtendNonneg op)
    (hinv : ∀ D, st.ends_at = some D → ∃ t, setAt = some t ∧ t ≤ D) :
    ∀ D, (stepClock st op).1.ends_at = some D →
      ∃ t, setAtUpdate setAt op = some t ∧ t ≤ D := by
  cases op with
  | start now s =>
    intro D hD
    have hD2 : (st.start now s).1.ends_at = some D := hD
    rw [(start_state st now s).1] at hD2
    injection hD2 with hD2
    have h0 : (0 : Int) ≤ max 0 s := le_max_left 0 s
    exact ⟨now, rfl, by omega⟩
  | stop =>
    intro D hD
    have hD2 : (none : Option Int) = some D := hD
    cases hD2
  | extend now s =>
    intro D hD
    have hs : (0 : Int) ≤ s := hop
    cases hE : st.ends_at with
    | none =>
      have hD2 : (st.extend now s).1.ends_at = some D := hD
      rw [extend_unset st now s hE] at hD2
      rw [hE] at hD2
      cases hD2
    | some e =>
      have hD2 : (st.extend now s).1.ends_at = some D := hD
      rw [(extend_state st now s e hE).1] at hD2
      injection hD2 with hD2
      obtain ⟨t, ht, hle⟩ := hinv e hE
      exact ⟨t, ht, by omega⟩
  | heartbeat now =>
    intro D hD
    have hpre : (stepClock st (ClockOp.heartbeat now)).1.ends_at = st.ends_at := by
      simp only [stepClock]
      split
      · exact on_heartbeat_timeout_ends_at st now
      · rfl
    rw [hpre] at hD
    exact hinv D hD
  | phaseTimeout =>
    intro D hD
    have hpre : (stepClock st ClockOp.phaseTimeout).1.ends_at = st.ends_at := by
      simp only [stepClock]
      split <;> rfl
    rw [hpre] at hD
    exact hinv D hD
  | warningTimeout =>
    intro D hD
    have hpre : (stepClock st ClockOp.warningTimeout).1.ends_at = st.ends_at := by
      simp only [stepClock]
      split <;> rfl
    rw [hpre] at hD
    exact hinv D hD
  | probeGap now =>
    intro D hD
    exact hinv D hD

/-- The set-at invariant holds after any run whose extends are
non-negative. -/
lemma runClockSetAt_inv :
    ∀ (ops : List ClockOp) (st : SleepRecoveryTimer) (setAt : Option Int),
      extendsNonneg ops = true →
      (∀ D, st.ends_at = some D → ∃ t, setAt = some t ∧ t ≤ D) →
      ∀ D, (runClockSetAt st setAt ops).1.ends_at = some D →
        ∃ t, (runClockSetAt st setAt ops).2 = some t ∧ t ≤ D := by
  intro ops
  induction ops with
  | nil =>
    intro st setAt _ hinv D hD
    exact hinv D hD
  | cons op rest ih =>
    intro st setAt hnn hinv D hD
    obtain ⟨hop, hrest⟩ := extendsNonneg_cons op rest hnn
    exact ih (stepClock st op).1 _ hrest (step_preserves_deadline_inv st setAt op hop hinv) D hD

/-- C5: the deadline only ever moves forward — per step, `extend` with a
non-negative amount advances it, heartbeat recovery and timeouts never
change it and `stop` clears it — and along any run from the fresh clock
(with the program's non-negative extend amounts) a set deadline is
always at or after the instant of the `start` that set it. -/
theorem C5_deadline_forward_only :
    (∀ (ops : List ClockOp), extendsNonneg ops = true →
       ∀ D, (runClockSetAt SleepRecoveryTimer.init none ops).1.ends_at = some D →
         ∃ t, (runClockSetAt SleepRecoveryTimer.init none ops).2 = some t ∧ t ≤ D) ∧
    (∀ (st : SleepRecoveryTimer) (now s D : Int), 0 ≤ s → st.ends_at = some D →
       (st.extend now s).1.ends_at = some (D + s) ∧ D ≤ D + s) ∧
    (∀ (st : SleepRecoveryTimer) (now : Int),
       (st.on_heartbeat_timeout now).1.ends_at = st.ends_at) ∧
    (∀ st : SleepRecoveryTimer, st.on_phase_timer_timeout.1.ends_at = st.ends_at) ∧
    (∀ st : SleepRecoveryTimer, st.stop.ends_at = none) := by
  refine ⟨?_, ?_, on_heartbeat_timeout_ends_at, fun st => rfl, fun st => rfl⟩
  · intro ops hnn D hD
    refine runClockSetAt_inv ops SleepRecoveryTimer.init none hnn ?_ D hD
    intro D2 h2
    rw [show SleepRecoveryTimer.init.ends_at = none from rfl] at h2
    cases h2
  · intro st now s D hs hD
    exact ⟨(extend_state st now s D hD).1, by omega⟩

/-- Closed instance of C5: after `start` at 0 for 100 s, `extend(50)`
and a heartbeat, the deadline 150 is at or after the set instant 0. -/
theorem C5_deadline_forward_only_witness :
    ∃ t, (runClockSetAt SleepRecoveryTimer.init none
        [ClockOp.start 0 100, ClockOp.extend 5 50, ClockOp.heartbeat 10]).2 = some t ∧
      t ≤ 150 :=
  C5_deadline_forward_only.1
    [ClockOp.start 0 100, ClockOp.extend 5 50, ClockOp.heartbeat 10] (by decide) 150 (by decide)

/-- Counting `phaseEndingSoon` distributes over list append. -/
lemma countWarnings_append (l1 l2 : List ClockEvent) :
    countWarnings (l1 ++ l2) = countWarnings l1 + countWarnings l2 := by
  induction l1 with
  | nil => simp [countWarnings]
  | cons a rest ih =>
    cases a <;> simp [countWarnings, ih]
    omega

/-- Counterexample to C6 as stated: within a single phase instance (one
`start`, no further `start`/`stop`), the warning is emitted twice —
`start(30)` at time 0 emits it immediately (duration inside the warning
window) and `extend(10)` at time 5 reschedules and immediately emits it
again. -/
theorem C6_warning_once_counterexample :
    countWarnings (runClock SleepRecoveryTimer.init
        [ClockOp.start 0 30, ClockOp.extend 5 10]).2 = 2 := by
  decide

/-- `start` either emits no warning (timer armed for later, or none
due) or emits exactly one immediately, leaving the warning timer
stopped. -/
lemma start_warning_cases (st : SleepRecoveryTimer) (now s : Int) :
    (st.start now s).2 = [] ∨
    ((st.start now s).2 = [ClockEvent.phaseEndingSoon] ∧
     (st.start now s).1.phase_warning_timer.active = false) := by
  rcases schedule_phase_warning_events
    { st with
      ends_at := some (now + max 0 s)
      last_heartbeat_at := some now
      phase_timer := ⟨true, now, max 0 s⟩ } now with h | h
  · exact Or.inl h
  · exact Or.inr ⟨h.1, h.2⟩

/-- Whether a run of clock operations performs no warning rescheduling:
no `start`, no `extend`, and every heartbeat it contains is delivered
in a state where it detects no sleep gap (gap-free heartbeats and
heartbeats of a stopped clock are allowed — they do not touch the
warning). Evaluated along the run, state by state. -/
def noReschedule (st : SleepRecoveryTimer) : List ClockOp → Bool
  | [] => true
  | op :: ops =>
    (match op with
     | ClockOp.start _ _ => false
     | ClockOp.extend _ _ => false
     | ClockOp.heartbeat now => !(st.heartbeat_active && (st.detect_sleep_gap now).1)
     | _ => true) && noReschedule (stepClock st op).1 ops

/-- Along rescheduling-free operations (from any clock state), the
number of warning emissions is bounded by one pending single-shot
warning timer. -/
lemma noReschedule_run_warning_bound :
    ∀ (ops : List ClockOp) (st : SleepRecoveryTimer), noReschedule st ops = true →
      countWarnings (runClock st ops).2 ≤
        (if st.phase_warning_timer.active = true then 1 else 0) := by
  intro ops
  induction ops with
  | nil =>
    intro st _
    rw [show countWarnings (runClock st []).2 = 0 from rfl]
    split <;> omega
  | cons op rest ih =>
    intro st hq
    have hsplit : countWarnings (runClock st (op :: rest)).2 =
        countWarnings (stepClock st op).2 +
          countWarnings (runClock (stepClock st op).1 rest).2 := by
      rw [show (runClock st (op :: rest)).2 =
          (stepClock st op).2 ++ (runClock (stepClock st op).1 rest).2 from rfl,
        countWarnings_append]
    cases op with
    | start now s =>
      rw [show noReschedule st (ClockOp.start now s :: rest)
          = (false && noReschedule (stepClock st (ClockOp.start now s)).1 rest) from rfl] at hq
      simp at hq
    | extend now s =>
      rw [show noReschedule st (ClockOp.extend now s :: rest)
          = (false && noReschedule (stepClock st (ClockOp.extend now s)).1 rest) from rfl] at hq
      simp at hq
    | heartbeat now =>
      rw [show noReschedule st (ClockOp.heartbeat now :: rest)
          = ((!(st.heartbeat_active && (st.detect_sleep_gap now).1))
             && noReschedule (stepClock st (ClockOp.heartbeat now)).1 rest) from rfl,
        Bool.and_eq_true] at hq
      obtain ⟨h1, h2⟩ := hq
      by_cases hb : st.heartbeat_active = true
      · have hdet : (st.detect_sleep_gap now).1 = false := by
          rw [hb] at h1
          simpa using h1
        have hstep : stepClock st (ClockOp.heartbeat now) = ((st.detect_sleep_gap now).2, []) := by
          simp only [stepClock]
          rw [if_pos hb]
          unfold SleepRecoveryTimer.on_heartbeat_timeout
          rw [hdet, if_neg (by simp)]
        have hr := ih (st.detect_sleep_gap now).2 (by rw [hstep] at h2; exact h2)
        have hif : (if (st.detect_sleep_gap now).2.phase_warning_timer.active = true
              then (1 : Nat) else 0)
            = (if st.phase_warning_timer.active = true then (1 : Nat) else 0) := rfl
        rw [hif] at hr
        rw [hsplit, hstep,
          show (((st.detect_sleep_gap now).2, ([] : List ClockEvent))).2 = [] from rfl,
          show (((st.detect_sleep_gap now).2, ([] : List ClockEvent))).1
            = (st.detect_sleep_gap now).2 from rfl,
          show countWarnings [] = 0 from rfl]
        omega
      · have hstep : stepClock st (ClockOp.heartbeat now) = (st, []) := by
          simp only [stepClock]
          rw [if_neg hb]
        have hr := ih st (by rw [hstep] at h2; exact h2)
        rw [hsplit, hstep,
          show ((st, ([] : List ClockEvent))).2 = [] from rfl,
          show ((st, ([] : List ClockEvent))).1 = st from rfl,
          show countWarnings [] = 0 from rfl]
        omega
    | stop =>
      rw [show noReschedule st (ClockOp.stop :: rest)
          = (true && noReschedule (stepClock st ClockOp.stop).1 rest) from rfl,
        Bool.and_eq_true] at hq
      have hr := ih st.stop hq.2
      have hif : (if st.stop.phase_warning_timer.active = true then (1 : Nat) else 0)
          = (if (false : Bool) = true then (1 : Nat) else 0) := rfl
      rw [hif] at hr
      simp at hr
      rw [hsplit, show stepClock st ClockOp.stop = (st.stop, []) from rfl,
        show ((st.stop, ([] : List ClockEvent))).2 = [] from rfl,
        show ((st.stop, ([] : List ClockEvent))).1 = st.stop from rfl,
        show countWarnings [] = 0 from rfl, hr]
      split <;> omega
    | phaseTimeout =>
      rw [show noReschedule st (ClockOp.phaseTimeout :: rest)
          = (true && noReschedule (stepClock st ClockOp.phaseTimeout).1 rest) from rfl,
        Bool.and_eq_true] at hq
      by_cases hb : st.phase_timer.active = true
      · have hstep : stepClock st ClockOp.phaseTimeout = st.on_phase_timer_timeout := by
          simp only [stepClock]
          rw [if_pos hb]
        have hr := ih st.on_phase_timer_timeout.1 (by rw [hstep] at hq; exact hq.2)
        have hif : (if st.on_phase_timer_timeout.1.phase_warning_timer.active = true
              then (1 : Nat) else 0)
            = (if (false : Bool) = true then (1 : Nat) else 0) := rfl
        rw [hif] at hr
        simp at hr
        rw [hsplit, hstep,
          show st.on_phase_timer_timeout.2 = [ClockEvent.finished 0] from rfl,
          show countWarnings [ClockEvent.finished 0] = 0 from rfl, hr]
        split <;> omega
      · have hstep : stepClock st ClockOp.phaseTimeout = (st, []) := by
          simp only [stepClock]
          rw [if_neg hb]
        have hr := ih st (by rw [hstep] at hq; exact hq.2)
        rw [hsplit, hstep,
          show ((st, ([] : List ClockEvent))).2 = [] from rfl,
          show ((st, ([] : List ClockEvent))).1 = st from rfl,
          show countWarnings [] = 0 from rfl]
        omega
    | warningTimeout =>
      rw [show noReschedule st (ClockOp.warningTimeout :: rest)
          = (true && noReschedule (stepClock st ClockOp.warningTimeout).1 rest) from rfl,
        Bool.and_eq_true] at hq
      by_cases hb : st.phase_warning_timer.active = true
      · have hstep : stepClock st ClockOp.warningTimeout =
            ({ st with phase_warning_timer := { st.phase_warning_timer with active := false } },
             [ClockEvent.phaseEndingSoon]) := by
          simp only [stepClock]
          rw [if_pos hb]
        have hr := ih { st with
          phase_warning_timer := { st.phase_warning_timer with active := false } }
          (by rw [hstep] at hq; exact hq.2)
        have hif : (if ({ st with phase_warning_timer :=
              { st.phase_warning_timer with active := false } } :
              SleepRecoveryTimer).phase_warning_timer.active = true then (1 : Nat) else 0)
            = (if (false : Bool) = true then (1 : Nat) else 0) := rfl
        rw [hif] at hr
        simp at hr
        rw [hsplit, hstep,
          show (({ st with phase_warning_timer :=
              { st.phase_warning_timer with active := false } },
            [ClockEvent.phaseEndingSoon]) :
              SleepRecoveryTimer × List ClockEvent).2 = [ClockEvent.phaseEndingSoon] from rfl,
          show (({ st with phase_warning_timer :=
              { st.phase_warning_timer with active := false } },
            [ClockEvent.phaseEndingSoon]) :
              SleepRecoveryTimer × List ClockEvent).1
            = { st with phase_warning_timer :=
                { st.phase_warning_timer with active := false } } from rfl,
          show countWarnings [ClockEvent.phaseEndingSoon] = 1 from rfl, hr, if_pos hb]
        omega
      · have hstep : stepClock st ClockOp.warningTimeout = (st, []) := by
          simp only [stepClock]
          rw [if_neg hb]
        have hr := ih st (by rw [hstep] at hq; exact hq.2)
        rw [hsplit, hstep,
          show ((st, ([] : List ClockEvent))).2 = [] from rfl,
          show ((st, ([] : List ClockEvent))).1 = st from rfl,
          show countWarnings [] = 0 from rfl]
        omega
    | probeGap now =>
      rw [show noReschedule st (ClockOp.probeGap now :: rest)
          = (true && noReschedule (stepClock st (ClockOp.probeGap now)).1 rest) from rfl,
        Bool.and_eq_true] at hq
      have hr := ih (st.detect_sleep_gap now).2 hq.2
      have hif : (if (st.detect_sleep_gap now).2.phase_warning_timer.active = true
            then (1 : Nat) else 0)
          = (if st.phase_warning_timer.active = true then (1 : Nat) else 0) := rfl
      rw [hif] at hr
      rw [hsplit, show stepClock st (ClockOp.probeGap now) = ((st.detect_sleep_gap now).2, [])
          from rfl,
        show (((st.detect_sleep_gap now).2, ([] : List ClockEvent))).2 = [] from rfl,
        show (((st.detect_sleep_gap now).2, ([] : List ClockEvent))).1
          = (st.detect_sleep_gap now).2 from rfl,
        show countWarnings [] = 0 from rfl]
      omega

/-- C6 (amended): the warning fires at most once per warning schedule.
In any phase instance — a `start` issued in any clock state, followed
by operations up to the next `start` or `stop` — during which the clock
is not extended and no heartbeat detects a sleep gap (so nothing
re-runs the warning scheduling; gap-free heartbeats are allowed),
`phaseEndingSoon` is emitted at most once. `extend` or sleep-recovery
rescheduling can re-emit it within the same phase instance (see the
counterexample). -/
theorem C6_warning_at_most_once_amended :
    ∀ (st : SleepRecoveryTimer) (T0 s : Int) (ops : List ClockOp),
      noReschedule (st.start T0 s).1 ops = true →
      countWarnings (runClock st (ClockOp.start T0 s :: ops)).2 ≤ 1 := by
  intro st T0 s ops hq
  rw [show (runClock st (ClockOp.start T0 s :: ops)).2 =
      (st.start T0 s).2 ++ (runClock (st.start T0 s).1 ops).2 from rfl,
    countWarnings_append]
  have hb := noReschedule_run_warning_bound ops (st.start T0 s).1 hq
  rcases start_warning_cases st T0 s with h | h
  · rw [h, show countWarnings [] = 0 from rfl]
    have h1 : countWarnings (runClock (st.start T0 s).1 ops).2 ≤ 1 := by
      refine le_trans hb ?_
      split <;> omega
    omega
  · rw [h.1, show countWarnings [ClockEvent.phaseEndingSoon] = 1 from rfl]
    rw [h.2] at hb
    simp at hb
    omega

/-- Closed instance of the amended C6: a second phase instance (the
clock is already mid-session), started at time 50 for 180 seconds, then
a gap-free heartbeat at 60 and the warning timer firing, emits the
warning exactly once — at most once. -/
theorem C6_warning_at_most_once_amended_witness :
    countWarnings (runClock (SleepRecoveryTimer.init.start 0 300).1
        [ClockOp.start 50 180, ClockOp.heartbeat 60, ClockOp.warningTimeout]).2 ≤ 1 :=
  C6_warning_at_most_once_amended (SleepRecoveryTimer.init.start 0 300).1 50 180
    [ClockOp.heartbeat 60, ClockOp.warningTimeout] (by decide)
